import Mathlib

/-!
Shallow embedding of the simulation core of `deltaworld` (a top-down
wave-survival game).  Definitions are translated from the Python source:

* `src/deltaworld/model.py`  — items, `Bullet`, `Hostile` path bookkeeping,
  `Player` derived stats and `shoot`, `Level` wave driver;
* `src/deltaworld/views.py`  — `GameView.on_update` combat resolution,
  `GameView.kill_player`, `GameView.new_wave`.

Real-valued quantities (coordinates, times, speeds) are embedded as `ℚ`,
Python `int` as `ℤ` or `ℕ` (noted per field).  Randomness
(`random.choices`, `random.shuffle`, spawn positions) is passed in as
oracle parameters so properties can be stated for every outcome.
-/

namespace Deltaworld

/-! ### Items (model.py, classes `Item`, `SemiAutomatic`, ..., `LaserBeam`) -/

/-- The closed set of loot item classes defined in model.py. -/
inductive ItemTag where
  | semiAutomatic
  | pressurer
  | scope
  | blueCow
  | spray
  | threeSixty
  | holyGuard
  | smokeBomb
  | laserBeam
deriving DecidableEq, Repr

/-- `RARE` class attribute of each item class in model.py. -/
def ItemTag.RARE : ItemTag → Bool
  | .semiAutomatic => false
  | .pressurer => true
  | .scope => false
  | .blueCow => false
  | .spray => false
  | .threeSixty => false
  | .holyGuard => true
  | .smokeBomb => true
  | .laserBeam => true

/-- `DURATION` class attribute of each item class in model.py (seconds). -/
def ItemTag.DURATION : ItemTag → ℚ
  | .semiAutomatic => 12
  | .pressurer => 12
  | .scope => 18
  | .blueCow => 15
  | .spray => 13
  | .threeSixty => 12
  | .holyGuard => 8
  | .smokeBomb => 7
  | .laserBeam => 15

/-- `SemiAutomatic.FIRE_RATE` -/
def SemiAutomatic.FIRE_RATE : ℚ := 10
/-- `Pressurer.BULLET_SPEED_MOD` -/
def Pressurer.BULLET_SPEED_MOD : ℚ := 3 / 2
/-- `Pressurer.DAMAGE_MOD` -/
def Pressurer.DAMAGE_MOD : ℚ := 2
/-- `Scope.EXTRA_PENETRATION` -/
def Scope.EXTRA_PENETRATION : ℕ := 1
/-- `Scope.FIRE_RATE_MOD` -/
def Scope.FIRE_RATE_MOD : ℚ := 4 / 5
/-- `BlueCow.SPEED_MOD` -/
def BlueCow.SPEED_MOD : ℚ := 27 / 20

/-- An `Item` instance: its class tag and the `time_used` field set by
`Item.use()` (`None` until used). -/
structure ItemInst where
  tag : ItemTag
  time_used : Option ℚ
deriving DecidableEq, Repr

/-- `Item.use()`: records the current wall-clock time. -/
def ItemInst.use (now : ℚ) (it : ItemInst) : ItemInst :=
  { it with time_used := some now }

/-- `find_with_class(iter, cls)` from model.py, specialised to a list of item
instances and a single class: the first item of the class, if any. -/
def find_with_class (items : List ItemInst) (cls : ItemTag) : Option ItemInst :=
  items.find? (fun it => it.tag = cls)

/-! ### Player (model.py, class `Player`) -/

/-- `Player.BASE_DAMAGE` -/
def Player.BASE_DAMAGE : ℚ := 1
/-- `Player.BASE_SPEED` -/
def Player.BASE_SPEED : ℚ := 1
/-- `Player.BASE_FIRE_RATE` -/
def Player.BASE_FIRE_RATE : ℚ := 3
/-- `Player.BASE_BULLET_SPEED` -/
def Player.BASE_BULLET_SPEED : ℚ := 2

/-- The `Player` fields the simulation core reads and writes.  Upgrade
objects are embedded by their `level : ℕ` (`Upgrade.level`, only ever
incremented).  Rendering-only fields (textures, key-pressed flags) are
omitted. -/
structure PlayerState where
  armor : ℕ
  gun : ℕ
  ammo : ℕ
  stored_item : Option ItemInst
  res_coins : ℕ
  active_items : List ItemInst
  is_on_soulsand : Bool
  visible : Bool
  can_move : Bool
  center_x : ℚ
  center_y : ℚ
deriving DecidableEq, Repr

/-- `Player.final_damage`: `floor(BASE_DAMAGE + BASE_DAMAGE*0.5*ammo.level)`,
doubled by an active `Pressurer` before flooring. -/
def final_damage (p : PlayerState) : ℤ :=
  let damage : ℚ := Player.BASE_DAMAGE + Player.BASE_DAMAGE * (1 / 2) * p.ammo
  let damage : ℚ :=
    match find_with_class p.active_items .pressurer with
    | some _ => damage * Pressurer.DAMAGE_MOD
    | none => damage
  ⌊damage⌋

/-- `Player.final_penetration`: `max(int(1 * 0.5 * gun.level), 1)`, plus
`Scope.EXTRA_PENETRATION` when a Scope is active.  `int(0.5 * level)`
truncates the exact float `0.5 * level` toward zero, i.e. `level / 2` on
naturals. -/
def final_penetration (p : PlayerState) : ℕ :=
  let penetration : ℕ := max (p.gun / 2) 1
  match find_with_class p.active_items .scope with
  | some _ => penetration + Scope.EXTRA_PENETRATION
  | none => penetration

/-- `Player.final_bullet_speed`: `BASE_BULLET_SPEED`, times
`Pressurer.BULLET_SPEED_MOD` when a Pressurer is active. -/
def final_bullet_speed (p : PlayerState) : ℚ :=
  let speed : ℚ := Player.BASE_BULLET_SPEED
  match find_with_class p.active_items .pressurer with
  | some _ => speed * Pressurer.BULLET_SPEED_MOD
  | none => speed

/-- `Player.final_movement_speed`: base plus 20% per armor level, times
`BlueCow.SPEED_MOD` when a BlueCow is active, minus 0.4 on soulsand. -/
def final_movement_speed (p : PlayerState) : ℚ :=
  let speed : ℚ := Player.BASE_SPEED + Player.BASE_SPEED * (1 / 5) * p.armor
  let speed : ℚ :=
    match find_with_class p.active_items .blueCow with
    | some _ => speed * BlueCow.SPEED_MOD
    | none => speed
  if p.is_on_soulsand then speed - 2 / 5 else speed

/-! ### Bullet (model.py, class `Bullet`) -/

/-- A `Bullet` sprite's combat fields.  `hostiles_hit` is the
`SpriteList` used to "Avoid hitting an enemy twice", embedded as the list
of hit hostiles' entity ids.  `remaining_penetration` is a Python int and
can go negative, hence `ℤ`. -/
structure Bullet where
  damage : ℤ
  remaining_penetration : ℤ
  hostiles_hit : List ℕ
  center_x : ℚ
  center_y : ℚ
  angle : ℚ
deriving DecidableEq, Repr

/-- `Bullet.__init__` followed by the `change_x/change_y` assignment in
`Player.shoot` (the velocity itself is rendering-level; position and angle
are kept). -/
def mkBullet (damage penetration : ℤ) (center_x center_y angle : ℚ) : Bullet :=
  { damage := damage
    remaining_penetration := penetration
    hostiles_hit := []
    center_x := center_x
    center_y := center_y
    angle := angle }

/-- The bullet-construction part of `Player.shoot` (model.py lines
666-775), given the already-computed `shoot_angle`.  The early-return
paths (`None` on cooldown, on `can_move = False`, or with no shoot
direction) produce no bullets and are handled by the caller; this
function yields the list of bullets `shoot` returns otherwise: extra
bullets for Spray xor ThreeSixty, the 15-angle fan for both, and always
the default bullet at `shoot_angle`. -/
def shoot (p : PlayerState) (shoot_angle : ℚ) : List Bullet :=
  let bullet_damage := final_damage p
  let bullet_penetration : ℤ := final_penetration p
  let spray := find_with_class p.active_items .spray
  let threeSixty := find_with_class p.active_items .threeSixty
  let sprayBullets : List Bullet :=
    match spray, threeSixty with
    | some _, none =>
        [shoot_angle - 45 / 2, shoot_angle + 45 / 2].map
          (fun angle => mkBullet bullet_damage bullet_penetration
            p.center_x p.center_y angle)
    | _, _ => []
  let threeSixtyBullets : List Bullet :=
    match threeSixty, spray with
    | some _, none =>
        [shoot_angle + 45, shoot_angle + 90, shoot_angle + 135,
         shoot_angle + 180, shoot_angle + 225, shoot_angle + 270,
         shoot_angle + 315].map
          (fun angle => mkBullet bullet_damage bullet_penetration
            p.center_x p.center_y angle)
    | _, _ => []
  let bothBullets : List Bullet :=
    match threeSixty, spray with
    | some _, some _ =>
        [shoot_angle + 45 / 2, shoot_angle + 45, shoot_angle + 135 / 2,
         shoot_angle + 90, shoot_angle + 225 / 2, shoot_angle + 135,
         shoot_angle + 315 / 2, shoot_angle + 180, shoot_angle + 405 / 2,
         shoot_angle + 225, shoot_angle + 495 / 2, shoot_angle + 270,
         shoot_angle + 585 / 2, shoot_angle + 315,
         shoot_angle + 675 / 2].map
          (fun angle => mkBullet bullet_damage bullet_penetration
            p.center_x p.center_y angle)
    | _, _ => []
  let default_bullet := mkBullet bullet_damage bullet_penetration
    p.center_x p.center_y shoot_angle
  sprayBullets ++ threeSixtyBullets ++ bothBullets ++ [default_bullet]

/-! ### Combat resolution (views.py, `GameView.on_update` lines 800-844) -/

/-- A hostile as seen by combat resolution: its identity (for the
bullet's `hostiles_hit` list) and its `hp` (Python int, damage can drive
it negative). -/
structure HostileM where
  id : ℕ
  hp : ℤ
deriving DecidableEq, Repr

/-- Outcome of one projectile/hostile overlap. -/
structure HitOutcome where
  bullet : Bullet
  hostile : HostileM
  bullet_destroyed : Bool
  hostile_destroyed : Bool
deriving DecidableEq, Repr

/-- The friendly-projectile/hostile branch of `GameView.on_update`
(views.py lines 825-834), for the first overlapping hostile:

```
hostile = hostiles[0]
if hostile in projectile.hostiles_hit:
    pass  # Hit this one already
projectile.remaining_penetration -= 1
projectile.hostiles_hit.append(hostile)
hostile.hp -= projectile.damage
if projectile.remaining_penetration < 1:
    projectile.remove_from_sprite_lists()
if hostile.hp < 1:
    hostile.remove_from_sprite_lists()
```

Note the `pass` statement: the membership test on `hostiles_hit` has no
effect on control flow, so the decrement/damage lines below it run
unconditionally; the embedding mirrors that fall-through exactly. -/
def hitHostile (projectile : Bullet) (hostile : HostileM) : HitOutcome :=
  let projectile :=
    { projectile with
        remaining_penetration := projectile.remaining_penetration - 1
        hostiles_hit := projectile.hostiles_hit ++ [hostile.id] }
  let hostile := { hostile with hp := hostile.hp - projectile.damage }
  { bullet := projectile
    hostile := hostile
    bullet_destroyed := projectile.remaining_penetration < 1
    hostile_destroyed := hostile.hp < 1 }

/-- A projectile meeting a sequence of hostiles one per tick (each tick
the branch above fires for the first overlapping hostile; once the
projectile is removed from its sprite lists it takes part in no later
tick).  Returns the surviving projectile (or `none`) and the hostiles
with their final hp. -/
def hitSequence : Bullet → List HostileM → Option Bullet × List HostileM
  | b, [] => (some b, [])
  | b, h :: rest =>
      let out := hitHostile b h
      if out.bullet_destroyed then
        (none, out.hostile :: rest)
      else
        let tail := hitSequence out.bullet rest
        (tail.1, out.hostile :: tail.2)

/-- A wall sprite as seen by projectile collision: only its `bottom`
(lower edge y-coordinate) is read. -/
structure WallM where
  bottom : ℚ
deriving DecidableEq, Repr

/-- The projectile/wall branch of `GameView.on_update` (views.py lines
812-817): given the walls the projectile overlaps
(`check_for_collision_with_list`), the projectile is removed when some
overlapped wall has `not projectile.center_y < wall.bottom`:

```
for wall in walls:
    if not projectile.center_y < wall.bottom:
        projectile.remove_from_sprite_lists()
```

Returns `true` when the projectile is destroyed. -/
def projectileWallDestroyed (projectile : Bullet) (walls : List WallM) : Bool :=
  walls.any (fun wall => ¬ projectile.center_y < wall.bottom)

/-! ### Level / wave driver (model.py, class `Level`) -/

/-- A `waves` list entry selector: either a mob count (probabilistic
wave) or the name of a special wave. -/
inductive WaveSel where
  | count (k : ℕ)
  | special (name : String)
deriving DecidableEq, Repr

/-- `Level` state: the parsed toml fields plus the `current_wave`
cursor.  Python dicts become association lists (keys unique in a toml
table).  `current_wave` starts at 0 and in the source only `next_wave`
(increment) and `GameView.kill_player` (decrement clamped at 0) write
it, so it stays a natural number. -/
structure LevelState where
  mobs_probabilities : List (String × ℚ)
  special_waves : List (String × List (String × ℕ))
  waves : List (WaveSel × ℚ)
  current_wave : ℕ
deriving DecidableEq, Repr

/-- `Level.last_wave = len(self.waves) - 1` (Python int: `-1` for an
empty list, hence `ℤ`). -/
def last_wave (l : LevelState) : ℤ := (l.waves.length : ℤ) - 1

/-- The flattening loop of `Level._get_special_wave_distribution`:

```
mobs = []
for mob, i in self.special_waves[name].items():
    mobs.extend([mob] * i)
```
-/
def specialWaveMobs (comp : List (String × ℕ)) : List String :=
  comp.foldl (fun mobs p => mobs ++ List.replicate p.2 p.1) []

/-- `Level._get_special_wave_distribution(wave)`.  `random.shuffle` is
passed in as the oracle `shuffle` (its contract: the output is a
permutation of the input).  Errors mirror the `RuntimeError` for a
non-special wave and the `KeyError` for a name missing from
`special_waves`. -/
def get_special_wave_distribution (shuffle : List String → List String)
    (l : LevelState) (wave : ℕ) : Except String (List String) :=
  match l.waves.get? wave with
  | none => .error "IndexError"
  | some (WaveSel.count _, _) => .error "Wave is not a special wave"
  | some (WaveSel.special name, _) =>
      match l.special_waves.lookup name with
      | none => .error "KeyError"
      | some comp => .ok (shuffle (specialWaveMobs comp))

/-- `Level._calculate_wave_distribution(wave)`.  `random.choices` is the
oracle `pick`: given the draw count it yields the drawn mob names. -/
def calculate_wave_distribution (pick : ℕ → List String)
    (l : LevelState) (wave : ℕ) : Except String (List String) :=
  match l.waves.get? wave with
  | none => .error "IndexError"
  | some (WaveSel.special _, _) => .error "Cannot calculate special wave"
  | some (WaveSel.count k, _) => .ok (pick k)

/-- `Level.next_wave()`: raises `RuntimeError` once
`current_wave > last_wave`; otherwise computes the distribution for the
current wave, advances the cursor, and returns the mob list. -/
def next_wave (pick : ℕ → List String) (shuffle : List String → List String)
    (l : LevelState) : Except String (List String × LevelState) :=
  if (l.current_wave : ℤ) > last_wave l then
    .error "There are no more waves defined for this level."
  else
    match l.waves.get? l.current_wave with
    | none => .error "IndexError"
    | some (WaveSel.special _, _) =>
        match get_special_wave_distribution shuffle l l.current_wave with
        | .error e => .error e
        | .ok mobs => .ok (mobs, { l with current_wave := l.current_wave + 1 })
    | some (WaveSel.count _, _) =>
        match calculate_wave_distribution pick l l.current_wave with
        | .error e => .error e
        | .ok mobs => .ok (mobs, { l with current_wave := l.current_wave + 1 })

/-! ### Item pickup (model.py `Player.pickup_item` / `_use_item`,
views.py `GameView.on_update` lines 855-866) -/

/-- `Player._use_item(item)`: drop every active item of the same class,
append the item, and `item.use()` (stamp `time_used` with the current
time). -/
def use_item_impl (now : ℚ) (p : PlayerState) (item : ItemInst) : PlayerState :=
  { p with
      active_items :=
        (p.active_items.filter (fun ai => ai.tag ≠ item.tag))
          ++ [item.use now] }

/-- `Player.pickup_item(item)`: store the item if no item is stored,
otherwise auto-use the picked-up item (the stored item is untouched). -/
def pickup_item (now : ℚ) (p : PlayerState) (item : ItemInst) : PlayerState :=
  match p.stored_item with
  | none => { p with stored_item := some item }
  | some _ => use_item_impl now p item

/-- What a ground pickup is: a loot item class or a resurrection coin
(`ItemSprite.type`). -/
inductive Pickup where
  | loot (tag : ItemTag)
  | resCoin
deriving DecidableEq, Repr

/-- The item-pickup branch of `GameView.on_update` (views.py lines
861-866) for one collected pickup: a resurrection coin increments
`res_coins`; any other pickup instantiates the item class
(`item.type()`, a fresh instance with `time_used = None`) and hands it to
`Player.pickup_item`. -/
def pickupStep (now : ℚ) (p : PlayerState) (pk : Pickup) : PlayerState :=
  match pk with
  | .resCoin => { p with res_coins := p.res_coins + 1 }
  | .loot tag => pickup_item now p { tag := tag, time_used := none }

/-! ### Game room (views.py, class `GameView`) -/

/-- The `GameView` state read and written by the embedded operations.
Sprite lists become lists of the corresponding model records. -/
structure GameViewState where
  player : PlayerState
  level : LevelState
  hostiles : List HostileM
  friendly_projectiles : List Bullet
  hostile_projectiles : List Bullet
  started : Bool
  delay_before_start : ℚ
  delay_start_time : ℚ
  last_wave_start : ℚ
  last_wave_duration : ℚ
  hard : Bool
  back_to_menu : Bool
deriving DecidableEq, Repr

/-- `GameView.kill_player()` (views.py lines 879-899): always clear the
hostiles and both projectile lists; then, with a resurrection coin in
hand, consume one, hide and freeze the player, roll `current_wave` back
by two clamping at zero (`current_wave -= 2; if < 0: = 0`, which on ℕ is
truncated subtraction), and restart the pre-wave delay; without a coin,
return to the main menu. -/
def kill_player (now : ℚ) (gv : GameViewState) : GameViewState :=
  let gv := { gv with
    hostiles := []
    friendly_projectiles := []
    hostile_projectiles := [] }
  if gv.player.res_coins ≠ 0 then
    { gv with
        player := { gv.player with
          res_coins := gv.player.res_coins - 1
          visible := false
          can_move := false }
        level := { gv.level with current_wave := gv.level.current_wave - 2 }
        started := false
        delay_before_start := 4
        delay_start_time := now }
  else
    { gv with back_to_menu := true }

/-- `GameView.new_wave()` (views.py lines 910-920): looking up the
current wave's duration raises `IndexError` past the end of `waves`,
re-raised as `RuntimeError("This was the last wave")`; otherwise the
level yields the next wave's mobs (returned here for `spawn_mob`) and the
wave timer restarts. -/
def new_wave (pick : ℕ → List String) (shuffle : List String → List String)
    (now : ℚ) (gv : GameViewState) :
    Except String (List String × GameViewState) :=
  match gv.level.waves.get? gv.level.current_wave with
  | none => .error "This was the last wave"
  | some (_, duration) =>
      match next_wave pick shuffle gv.level with
      | .error e => .error e
      | .ok (mobs, level) =>
          .ok (mobs,
            { gv with
                last_wave_duration := duration
                level := level
                last_wave_start := now })

/-- The wave-advancing head of `GameView.on_update` (views.py lines
779-792): before the room has started, the pre-wave delay elapsing
starts it and spawns the first wave (exceptions here are not caught);
once started, the wave duration elapsing triggers `new_wave()` inside
`try: ... except RuntimeError: pass`, so exhaustion leaves the state
unchanged instead of halting the tick. -/
def waveAdvanceStep (pick : ℕ → List String)
    (shuffle : List String → List String) (now : ℚ) (gv : GameViewState) :
    Except String GameViewState :=
  if ¬ gv.started ∧ now - gv.delay_start_time ≥ gv.delay_before_start then
    match new_wave pick shuffle now { gv with started := true } with
    | .error e => .error e
    | .ok (_, gv) => .ok gv
  else if gv.started ∧ now - gv.last_wave_start ≥ gv.last_wave_duration then
    match new_wave pick shuffle now gv with
    | .error _ => .ok gv
    | .ok (_, gv) => .ok gv
  else
    .ok gv

/-! ### Hostile pathfinding bookkeeping (model.py, class `Hostile`) -/

/-- The pathfinding-request bookkeeping of one `Hostile`:
`path_pending` is the flag from `Hostile.__init__`; `outstanding` counts
the requests submitted through `enqueue_pathfinder` whose results have not
yet been consumed by `pending_path_queue.get()`. -/
structure PathState where
  path_pending : Bool
  outstanding : ℕ
deriving DecidableEq, Repr

/-- `Hostile.__init__`: `path_pending = False`, no request submitted. -/
def initPathState : PathState := { path_pending := false, outstanding := 0 }

/-- The operations touching the bookkeeping: `_walk_to_point` (submit
attempt) and the poll at the top of `Hostile.on_update`, whose `ready`
input is whether `pending_path_queue.ready()` holds this tick. -/
inductive PathOp where
  | walk
  | poll (ready : Bool)
deriving DecidableEq, Repr

/-- One bookkeeping step.  `_walk_to_point` (model.py lines 446-450)
returns immediately when `path_pending` is set, else sets it and submits
one request; `on_update` (lines 405-407) clears `path_pending` and
consumes the result exactly when a request is pending and ready. -/
def stepPath (s : PathState) : PathOp → PathState
  | .walk =>
      if s.path_pending then s
      else { path_pending := true, outstanding := s.outstanding + 1 }
  | .poll ready =>
      if s.path_pending ∧ ready then
        { path_pending := false, outstanding := s.outstanding - 1 }
      else s

/-- The bookkeeping state after a sequence of operations from init. -/
def runPath (ops : List PathOp) : PathState :=
  ops.foldl stepPath initPathState

/-! ## Helper lemmas -/

theorem specialWaveMobs_foldl (comp : List (String × ℕ)) (acc : List String) :
    comp.foldl (fun mobs p => mobs ++ List.replicate p.2 p.1) acc
      = acc ++ specialWaveMobs comp := by
  induction comp generalizing acc with
  | nil => simp [specialWaveMobs]
  | cons hd tl ih =>
      simp only [specialWaveMobs, List.foldl_cons, List.nil_append] at *
      rw [ih, ih (List.replicate hd.2 hd.1), List.append_assoc]

theorem specialWaveMobs_cons (hd : String × ℕ) (tl : List (String × ℕ)) :
    specialWaveMobs (hd :: tl)
      = List.replicate hd.2 hd.1 ++ specialWaveMobs tl := by
  simp only [specialWaveMobs, List.foldl_cons, List.nil_append]
  exact specialWaveMobs_foldl tl (List.replicate hd.2 hd.1)

theorem count_specialWaveMobs_not_key (comp : List (String × ℕ)) (m : String)
    (h : m ∉ comp.map Prod.fst) : (specialWaveMobs comp).count m = 0 := by
  induction comp with
  | nil => simp [specialWaveMobs]
  | cons hd tl ih =>
      simp only [List.map_cons, List.mem_cons, not_or] at h
      rw [specialWaveMobs_cons, List.count_append, ih h.2,
        List.count_replicate]
      simp [Ne.symm h.1]

theorem count_specialWaveMobs (comp : List (String × ℕ)) (m : String) (k : ℕ)
    (hnodup : (comp.map Prod.fst).Nodup) (hmem : (m, k) ∈ comp) :
    (specialWaveMobs comp).count m = k := by
  induction comp with
  | nil => cases hmem
  | cons hd tl ih =>
      rw [List.map_cons, List.nodup_cons] at hnodup
      rw [specialWaveMobs_cons, List.count_append]
      rcases List.mem_cons.mp hmem with heq | hmemtl
      · have hnot : m ∉ tl.map Prod.fst := by
          rw [← heq] at hnodup; exact hnodup.1
        rw [count_specialWaveMobs_not_key tl m hnot, List.count_replicate]
        simp [← heq]
      · have hne : hd.1 ≠ m := by
          intro hc
          exact hnodup.1 (hc ▸ List.mem_map_of_mem Prod.fst hmemtl)
        rw [ih hnodup.2 hmemtl, List.count_replicate]
        simp only [Nat.add_left_eq_self, ite_eq_right_iff]
        exact fun hc => absurd (beq_iff_eq.mp hc) hne

/-- The invariant relating the `path_pending` flag to the number of
outstanding pathfinding requests. -/
def pathInv (s : PathState) : Prop :=
  s.outstanding = if s.path_pending then 1 else 0

theorem stepPath_inv (s : PathState) (op : PathOp) (h : pathInv s) :
    pathInv (stepPath s op) := by
  cases op with
  | walk =>
      by_cases hp : s.path_pending <;>
        simp_all [stepPath, pathInv]
  | poll ready =>
      by_cases hp : s.path_pending <;> cases ready <;>
        simp_all [stepPath, pathInv]

theorem foldl_stepPath_inv (ops : List PathOp) (s : PathState)
    (h : pathInv s) : pathInv (ops.foldl stepPath s) := by
  induction ops generalizing s with
  | nil => exact h
  | cons op rest ih => exact ih (stepPath s op) (stepPath_inv s op h)

/-! ## Claims -/

/-- C8: for every special wave named in a level's configuration, the list
returned by `_get_special_wave_distribution` is a permutation of the
configured composition: each mob name occurs exactly its configured count
of times, for every shuffle that permutes its input (the `random.shuffle`
contract) and for the unique-key association list a toml table parses
to. -/
theorem special_wave_matches_configuration
    (shuffle : List String → List String) (l : LevelState) (wave : ℕ)
    (name : String) (dur : ℚ) (comp : List (String × ℕ))
    (out : List String) (m : String) (k : ℕ)
    (hshuffle : ∀ xs, (shuffle xs).Perm xs)
    (hwave : l.waves.get? wave = some (WaveSel.special name, dur))
    (hcomp : l.special_waves.lookup name = some comp)
    (hnodup : (comp.map Prod.fst).Nodup)
    (hmk : (m, k) ∈ comp)
    (hout : get_special_wave_distribution shuffle l wave = .ok out) :
    out.count m = k := by
  simp only [get_special_wave_distribution, hwave, hcomp,
    Except.ok.injEq] at hout
  have hperm := hshuffle (specialWaveMobs comp)
  rw [← hout, hperm.count_eq]
  exact count_specialWaveMobs comp m k hnodup hmk

/-- Witness for C8 at a concrete level, with `reverse` as the shuffle. -/
theorem special_wave_matches_configuration_witness :
    (get_special_wave_distribution List.reverse
        { mobs_probabilities := []
          special_waves := [("boss", [("zombie", 2), ("giant", 1)])]
          waves := [(WaveSel.special "boss", 10)]
          current_wave := 0 } 0 = .ok ["giant", "zombie", "zombie"]) ∧
    List.count "zombie" ["giant", "zombie", "zombie"] = 2 := by
  refine ⟨by rfl, ?_⟩
  exact special_wave_matches_configuration List.reverse
    { mobs_probabilities := []
      special_waves := [("boss", [("zombie", 2), ("giant", 1)])]
      waves := [(WaveSel.special "boss", 10)]
      current_wave := 0 } 0 "boss" 10 [("zombie", 2), ("giant", 1)]
    ["giant", "zombie", "zombie"] "zombie" 2
    (fun xs => xs.reverse_perm) (by rfl) (by rfl) (by decide)
    (by decide) (by rfl)

/-- C9: `path_pending` is true exactly when one outstanding pathfinding
request exists (for every operation sequence from the initial hostile
state); `_walk_to_point` submits nothing while a request is pending,
submitting sets `path_pending`, and the flag is cleared only by consuming
a ready result in `on_update`. -/
theorem path_pending_invariant :
    (∀ ops : List PathOp,
      (runPath ops).outstanding = if (runPath ops).path_pending then 1 else 0)
    ∧ (∀ s : PathState, s.path_pending = true → stepPath s .walk = s)
    ∧ (∀ s : PathState, s.path_pending = false →
        (stepPath s .walk).path_pending = true
          ∧ (stepPath s .walk).outstanding = s.outstanding + 1)
    ∧ (∀ (s : PathState) (r : Bool), s.path_pending = true →
        (stepPath s (.poll r)).path_pending = false →
          r = true ∧ (stepPath s (.poll r)).outstanding = s.outstanding - 1) := by
  refine ⟨fun ops => ?_, fun s h => ?_, fun s h => ?_, fun s r h hc => ?_⟩
  · exact foldl_stepPath_inv ops initPathState rfl
  · simp [stepPath, h]
  · simp [stepPath, h]
  · cases r with
    | false => simp [stepPath, h] at hc
    | true => simp [stepPath, h]

/-- Witness for C9 on a concrete operation sequence and concrete
states. -/
theorem path_pending_invariant_witness :
    ((runPath [.walk, .walk, .poll false, .poll true, .walk]).outstanding
        = if (runPath [.walk, .walk, .poll false, .poll true,
            .walk]).path_pending then 1 else 0)
    ∧ stepPath ⟨true, 1⟩ .walk = ⟨true, 1⟩
    ∧ (stepPath ⟨false, 0⟩ .walk).path_pending = true
    ∧ ((stepPath ⟨true, 1⟩ (.poll true)).path_pending = false →
        (stepPath ⟨true, 1⟩ (.poll true)).outstanding = 0) := by
  refine ⟨path_pending_invariant.1 _, path_pending_invariant.2.1 _ rfl,
    (path_pending_invariant.2.2.1 ⟨false, 0⟩ rfl).1, fun hc => ?_⟩
  exact (path_pending_invariant.2.2.2 ⟨true, 1⟩ true rfl hc).2

/-- C1: the collision step is claimed to skip a hostile already recorded
in the projectile's hit-set.  The code does not: the
`if hostile in projectile.hostiles_hit: pass` branch (views.py line
826-827) is a no-op, so a projectile overlapping an already-hit hostile
decrements `remaining_penetration` again and damages that hostile again.
Evaluated here at a projectile (damage 1, penetration 5) whose hit-set
already holds hostile 0, overlapping hostile 0 (hp 10) once more: the
penetration drops to 4 and the hp to 9, against both the claim and the
code's own comments ("Avoid hitting an enemy twice",
"Hit this one already"). -/
theorem rehit_still_decrements_and_damages :
    (0 : ℕ) ∈ (Bullet.mk 1 5 [0] 0 0 0).hostiles_hit
    ∧ (hitHostile (Bullet.mk 1 5 [0] 0 0 0)
        (HostileM.mk 0 10)).bullet.remaining_penetration = 4
    ∧ (hitHostile (Bullet.mk 1 5 [0] 0 0 0)
        (HostileM.mk 0 10)).hostile.hp = 9
    ∧ (hitHostile (Bullet.mk 1 5 [0] 0 0 0)
        (HostileM.mk 0 10)).bullet.hostiles_hit = [0, 0] := by
  refine ⟨by decide, ?_, ?_, by simp [hitHostile]⟩ <;> simp [hitHostile]

/-- C2: a projectile with `remaining_penetration = 2` meeting three
hostiles in sequence survives the first hit, is destroyed on exactly the
second, damages each of the first two hostiles exactly once, and leaves
the third hostile's hp unchanged. -/
theorem penetration_two_destroyed_after_second_hit
    (b : Bullet) (h1 h2 h3 : HostileM)
    (hpen : b.remaining_penetration = 2) :
    (hitHostile b h1).bullet_destroyed = false
    ∧ (hitHostile (hitHostile b h1).bullet h2).bullet_destroyed = true
    ∧ hitSequence b [h1, h2, h3] =
        (none,
          [{ h1 with hp := h1.hp - b.damage },
           { h2 with hp := h2.hp - b.damage }, h3]) := by
  refine ⟨?_, ?_, ?_⟩ <;>
    simp [hitSequence, hitHostile, hpen]

/-- Witness for C2 at a concrete projectile and three concrete
hostiles. -/
theorem penetration_two_destroyed_after_second_hit_witness :
    (Bullet.mk 1 2 [] 0 0 0).remaining_penetration = 2
    ∧ hitSequence (Bullet.mk 1 2 [] 0 0 0)
        [HostileM.mk 1 3, HostileM.mk 2 3, HostileM.mk 3 3] =
        (none, [HostileM.mk 1 2, HostileM.mk 2 2, HostileM.mk 3 3]) := by
  refine ⟨rfl, ?_⟩
  have h := penetration_two_destroyed_after_second_hit
    (Bullet.mk 1 2 [] 0 0 0) (HostileM.mk 1 3) (HostileM.mk 2 3)
    (HostileM.mk 3 3) rfl
  simpa using h.2.2

/-- C3: with at least one resurrection coin, a lethal collision
(`kill_player`) consumes exactly one coin, clears every hostile and every
projectile from the room, rolls `current_wave` back by exactly 2 clamped
at 0, hides the player, disables movement, and does not end the encounter
(no return to the menu). -/
theorem res_coin_death_recovery (now : ℚ) (gv : GameViewState)
    (h : 1 ≤ gv.player.res_coins) :
    (kill_player now gv).player.res_coins = gv.player.res_coins - 1
    ∧ (kill_player now gv).hostiles = []
    ∧ (kill_player now gv).friendly_projectiles = []
    ∧ (kill_player now gv).hostile_projectiles = []
    ∧ ((kill_player now gv).level.current_wave : ℤ)
        = max ((gv.level.current_wave : ℤ) - 2) 0
    ∧ (kill_player now gv).player.visible = false
    ∧ (kill_player now gv).player.can_move = false
    ∧ (kill_player now gv).back_to_menu = gv.back_to_menu := by
  have hne : gv.player.res_coins ≠ 0 := by omega
  refine ⟨?_, ?_, ?_, ?_, ?_, ?_, ?_, ?_⟩ <;>
    simp [kill_player, hne]
  omega

/-- Witness for C3 at a concrete room state with one coin and the cursor
at wave 5. -/
theorem res_coin_death_recovery_witness :
    1 ≤ (GameViewState.mk
        (PlayerState.mk 0 0 0 none 1 [] false true true 0 0)
        (LevelState.mk [] [] [] 5) [HostileM.mk 0 1]
        [Bullet.mk 1 1 [] 0 0 0] [] true 2 0 0 5 false false).player.res_coins
    ∧ (kill_player 0 (GameViewState.mk
        (PlayerState.mk 0 0 0 none 1 [] false true true 0 0)
        (LevelState.mk [] [] [] 5) [HostileM.mk 0 1]
        [Bullet.mk 1 1 [] 0 0 0] [] true 2 0 0 5 false
        false)).player.res_coins = 0 := by
  refine ⟨by decide, ?_⟩
  have h := res_coin_death_recovery 0 (GameViewState.mk
    (PlayerState.mk 0 0 0 none 1 [] false true true 0 0)
    (LevelState.mk [] [] [] 5) [HostileM.mk 0 1]
    [Bullet.mk 1 1 [] 0 0 0] [] true 2 0 0 5 false false) (by decide)
  simpa using h.1

/-- C4: once the cursor has advanced past the last configured wave,
`Level.next_wave()` raises the exhaustion `RuntimeError` (and returns no
wrapped-around state), and the game room's tick (`on_update`) catches the
condition and carries on with the state unchanged instead of letting it
halt the loop. -/
theorem wave_exhaustion_raises_and_is_caught
    (pick : ℕ → List String) (shuffle : List String → List String)
    (now : ℚ) (gv : GameViewState)
    (hex : (gv.level.current_wave : ℤ) > last_wave gv.level)
    (hstarted : gv.started = true)
    (helapsed : now - gv.last_wave_start ≥ gv.last_wave_duration) :
    next_wave pick shuffle gv.level
      = .error "There are no more waves defined for this level."
    ∧ waveAdvanceStep pick shuffle now gv = .ok gv := by
  have hlen : gv.level.waves.length ≤ gv.level.current_wave := by
    unfold last_wave at hex; omega
  have hget : gv.level.waves.get? gv.level.current_wave = none :=
    List.get?_eq_none.mpr hlen
  have hnw : next_wave pick shuffle gv.level
      = .error "There are no more waves defined for this level." := by
    unfold next_wave
    rw [if_pos hex]
  refine ⟨hnw, ?_⟩
  unfold waveAdvanceStep
  rw [if_neg (by simp [hstarted]), if_pos ⟨hstarted, helapsed⟩]
  unfold new_wave
  rw [hget]

/-- Witness for C4: a one-wave level whose cursor already sits past the
end, in a started room whose wave timer has elapsed. -/
theorem wave_exhaustion_raises_and_is_caught_witness :
    ((((GameViewState.mk (PlayerState.mk 0 0 0 none 0 [] false true true 0 0)
        (LevelState.mk [] [] [(WaveSel.count 1, 5)] 1) [] [] [] true 2 0 0 5
        false false)).level.current_wave : ℤ)
      > last_wave (LevelState.mk [] [] [(WaveSel.count 1, 5)] 1))
    ∧ waveAdvanceStep (fun _ => []) id 10
        (GameViewState.mk (PlayerState.mk 0 0 0 none 0 [] false true true 0 0)
          (LevelState.mk [] [] [(WaveSel.count 1, 5)] 1) [] [] [] true 2 0 0 5
          false false)
      = .ok (GameViewState.mk (PlayerState.mk 0 0 0 none 0 [] false true true 0 0)
          (LevelState.mk [] [] [(WaveSel.count 1, 5)] 1) [] [] [] true 2 0 0 5
          false false) := by
  refine ⟨by decide, ?_⟩
  exact (wave_exhaustion_raises_and_is_caught (fun _ => []) id 10
    (GameViewState.mk (PlayerState.mk 0 0 0 none 0 [] false true true 0 0)
      (LevelState.mk [] [] [(WaveSel.count 1, 5)] 1) [] [] [] true 2 0 0 5
      false false) (by decide) rfl (by norm_num)).2

/-- C5 counterexample: the claim says exactly the projectiles whose
vertical position is above the wall's lower edge survive the overlap.
The code (views.py lines 815-817) destroys a projectile when
`not projectile.center_y < wall.bottom`: a projectile at `center_y = 20`
overlapping a wall whose lower edge is at 10 sits above that edge, yet
the step destroys it. -/
theorem wall_rule_direction_counterexample :
    (Bullet.mk 1 1 [] 0 20 0).center_y > (WallM.mk 10).bottom
    ∧ projectileWallDestroyed (Bullet.mk 1 1 [] 0 20 0) [WallM.mk 10]
        = true := by
  constructor
  · norm_num
  · simp [projectileWallDestroyed]
    norm_num

/-- C5 (amended): a projectile overlapping non-traversable wall tiles is
destroyed unless its vertical position (`center_y`) is strictly BELOW the
lower edge of every overlapping wall; equivalently, exactly the
projectiles whose `center_y` is below each overlapped wall's bottom
survive the wall overlap. -/
theorem wall_rule_survives_iff_strictly_below (b : Bullet)
    (walls : List WallM) :
    projectileWallDestroyed b walls = false
      ↔ ∀ w ∈ walls, b.center_y < w.bottom := by
  simp [projectileWallDestroyed]

/-- C6 counterexample: the claim says picking up a loot item while one is
stored auto-activates the HELD item and stores the NEW one.  In the code
(`Player.pickup_item`, model.py lines 605-611) the `else` branch calls
`_use_item` on the freshly picked-up item and never touches
`stored_item`: a player storing a Scope who picks up a Spray ends with
the Scope still stored and the Spray active. -/
theorem pickup_activates_new_item_counterexample :
    (pickupStep 0 (PlayerState.mk 0 0 0 (some (ItemInst.mk .scope none)) 0 []
        false true true 0 0) (.loot .spray)).stored_item
      = some (ItemInst.mk .scope none)
    ∧ (pickupStep 0 (PlayerState.mk 0 0 0 (some (ItemInst.mk .scope none)) 0
        [] false true true 0 0) (.loot .spray)).active_items
      = [ItemInst.mk .spray (some 0)]
    ∧ (pickupStep 0 (PlayerState.mk 0 0 0 (some (ItemInst.mk .scope none)) 0
        [] false true true 0 0) (.loot .spray)).stored_item
      ≠ some (ItemInst.mk .spray none) := by
  refine ⟨rfl, rfl, by decide⟩

/-- C6 (amended): picking up a loot item while a stored item is held
auto-activates the NEWLY picked-up item — removing any active item of the
same type and stamping the new instance's activation time, i.e.
restarting that type's timer — and leaves the stored item unchanged;
picking up a resurrection coin always only increments the coin counter
and touches neither the stored nor the active items. -/
theorem pickup_with_stored_item (now : ℚ) (p : PlayerState) (tag : ItemTag)
    (h : p.stored_item ≠ none) :
    (pickupStep now p (.loot tag)).stored_item = p.stored_item
    ∧ (pickupStep now p (.loot tag)).active_items
        = (p.active_items.filter (fun ai => ai.tag ≠ tag))
            ++ [ItemInst.mk tag (some now)]
    ∧ pickupStep now p .resCoin = { p with res_coins := p.res_coins + 1 } := by
  obtain ⟨it, hit⟩ := Option.ne_none_iff_exists.mp h
  refine ⟨?_, ?_, rfl⟩ <;>
    simp [pickupStep, pickup_item, use_item_impl, ItemInst.use, ← hit]

/-- Witness for C6 (amended): a held Scope plus an active Spray from
time 1; picking up another Spray at time 3 leaves the Scope stored and
replaces the active Spray with one stamped at time 3. -/
theorem pickup_with_stored_item_witness :
    (PlayerState.mk 0 0 0 (some (ItemInst.mk .scope none)) 0
        [ItemInst.mk .spray (some 1)] false true true 0 0).stored_item ≠ none
    ∧ (pickupStep 3 (PlayerState.mk 0 0 0 (some (ItemInst.mk .scope none)) 0
        [ItemInst.mk .spray (some 1)] false true true 0 0)
        (.loot .spray)).active_items = [ItemInst.mk .spray (some 3)] := by
  refine ⟨by decide, ?_⟩
  have h := pickup_with_stored_item 3
    (PlayerState.mk 0 0 0 (some (ItemInst.mk .scope none)) 0
      [ItemInst.mk .spray (some 1)] false true true 0 0) .spray (by decide)
  simpa using h.2.1

/-- C7 counterexample: the claim says no operation of the simulation core
ever decreases `current_wave`.  `GameView.kill_player` (views.py lines
890-892) does: a resurrection-coin death at `current_wave = 5` rolls the
cursor back to 3. -/
theorem current_wave_decreases_counterexample :
    (kill_player 0 (GameViewState.mk
        (PlayerState.mk 0 0 0 none 1 [] false true true 0 0)
        (LevelState.mk [] [] [] 5) [] [] [] true 2 0 0 5 false
        false)).level.current_wave
      < (GameViewState.mk (PlayerState.mk 0 0 0 none 1 [] false true true 0 0)
        (LevelState.mk [] [] [] 5) [] [] [] true 2 0 0 5 false
        false).level.current_wave := by
  decide

/-- C7 (amended): `current_wave` never decreases under the level driver
itself — `next_wave` adds exactly 1 on success and errors without a state
change on exhaustion — and the only core operation that decreases it is
the resurrection-coin death recovery in `kill_player`, which lowers it by
at most 2 and never below 0 (it stays a natural number). -/
theorem current_wave_monotone_except_death_recovery :
    (∀ (pick : ℕ → List String) (shuffle : List String → List String)
        (l : LevelState) (mobs : List String) (l' : LevelState),
      next_wave pick shuffle l = .ok (mobs, l') →
        l'.current_wave = l.current_wave + 1)
    ∧ (∀ (now : ℚ) (gv : GameViewState),
        gv.level.current_wave - 2 ≤ (kill_player now gv).level.current_wave
        ∧ (kill_player now gv).level.current_wave
            ≤ gv.level.current_wave) := by
  constructor
  · intro pick shuffle l mobs l' h
    unfold next_wave at h
    split at h
    · exact absurd h (by simp)
    · split at h
      all_goals try exact absurd h (by simp)
      all_goals
        split at h
        · exact absurd h (by simp)
        · rw [Except.ok.injEq, Prod.mk.injEq] at h
          rw [← h.2]
  · intro now gv
    by_cases hc : gv.player.res_coins ≠ 0 <;>
      constructor <;> simp [kill_player, hc]

/-- Witness for C7 (amended): `next_wave` on a one-wave level moves the
cursor from 0 to 1, and `kill_player` on a coin-holding player at wave 5
keeps the cursor within [3, 5]. -/
theorem current_wave_monotone_except_death_recovery_witness :
    (next_wave (fun k => List.replicate k "zombie") id
        (LevelState.mk [("zombie", 1)] [] [(WaveSel.count 1, 5)] 0)
      = .ok (["zombie"],
          LevelState.mk [("zombie", 1)] [] [(WaveSel.count 1, 5)] 1))
    ∧ (LevelState.mk [("zombie", 1)] [] [(WaveSel.count 1, 5)] 1).current_wave
        = 0 + 1
    ∧ (kill_player 0 (GameViewState.mk
        (PlayerState.mk 0 0 0 none 1 [] false true true 0 0)
        (LevelState.mk [] [] [] 5) [] [] [] true 2 0 0 5 false
        false)).level.current_wave ≤ 5 := by
  refine ⟨rfl, ?_, ?_⟩
  · exact current_wave_monotone_except_death_recovery.1
      (fun k => List.replicate k "zombie") id
      (LevelState.mk [("zombie", 1)] [] [(WaveSel.count 1, 5)] 0)
      ["zombie"]
      (LevelState.mk [("zombie", 1)] [] [(WaveSel.count 1, 5)] 1) rfl
  · exact (current_wave_monotone_except_death_recovery.2 0
      (GameViewState.mk (PlayerState.mk 0 0 0 none 1 [] false true true 0 0)
        (LevelState.mk [] [] [] 5) [] [] [] true 2 0 0 5 false false)).2

/-- C10 counterexample: the claim's consequence — a bullet from
`Player.shoot()` with `remaining_penetration >= 1` survives (unlike a
penetration-0 bullet) its first hostile hit — fails: with gun level 0 and
no items, `final_penetration` is 1, `shoot` produces the single default
bullet with `remaining_penetration = 1`, and the first hit drops the
penetration to 0, below 1, so the collision step destroys the bullet on
that very first hit. -/
theorem pen_one_bullet_destroyed_on_first_hit :
    final_penetration (PlayerState.mk 0 0 0 none 0 [] false true true 0 0) = 1
    ∧ shoot (PlayerState.mk 0 0 0 none 0 [] false true true 0 0) 0
        = [mkBullet
            (final_damage (PlayerState.mk 0 0 0 none 0 [] false true true 0 0))
            1 0 0 0]
    ∧ (hitHostile (mkBullet
        (final_damage (PlayerState.mk 0 0 0 none 0 [] false true true 0 0))
        1 0 0 0) (HostileM.mk 0 5)).bullet_destroyed = true := by
  exact ⟨rfl, rfl, rfl⟩

/-- C10 (amended): `final_penetration` is at least 1 for every gun level
and item set; every bullet `Player.shoot()` creates carries
`remaining_penetration = final_penetration >= 1`; a bullet is destroyed
for penetration only as the result of a hostile hit, and it always
applies its damage on its first hit — but it survives PAST that first hit
exactly when its `remaining_penetration` is at least 2, so a
`final_penetration = 1` bullet (no gun upgrades, no Scope) is destroyed
on the first hit itself, just like a default penetration-0 bullet
would be. -/
theorem shoot_penetration_at_least_one (p : PlayerState) (a : ℚ) :
    1 ≤ final_penetration p
    ∧ (∀ b ∈ shoot p a,
        b.remaining_penetration = (final_penetration p : ℤ))
    ∧ (∀ (b : Bullet) (h : HostileM),
        (hitHostile b h).hostile.hp = h.hp - b.damage
        ∧ ((hitHostile b h).bullet_destroyed = false
            ↔ 2 ≤ b.remaining_penetration)) := by
  refine ⟨?_, ?_, ?_⟩
  · unfold final_penetration
    rcases find_with_class p.active_items .scope with _ | s <;> simp
    omega
  · intro b hb
    have key : ∀ (L : List ℚ) (c : Bullet),
        c ∈ L.map (fun angle => mkBullet (final_damage p)
          ((final_penetration p : ℤ)) p.center_x p.center_y angle) →
        c.remaining_penetration = (final_penetration p : ℤ) := by
      intro L c hc
      rcases List.mem_map.mp hc with ⟨x, -, rfl⟩
      rfl
    simp only [shoot, List.mem_append, List.mem_singleton] at hb
    rcases hb with ((hb | hb) | hb) | hb
    · rcases hspray : find_with_class p.active_items .spray with _ | s <;>
        rcases h360 : find_with_class p.active_items .threeSixty with _ | t <;>
        rw [hspray, h360] at hb <;>
        first
          | exact absurd hb (List.not_mem_nil b)
          | exact key _ b hb
    · rcases hspray : find_with_class p.active_items .spray with _ | s <;>
        rcases h360 : find_with_class p.active_items .threeSixty with _ | t <;>
        rw [hspray, h360] at hb <;>
        first
          | exact absurd hb (List.not_mem_nil b)
          | exact key _ b hb
    · rcases hspray : find_with_class p.active_items .spray with _ | s <;>
        rcases h360 : find_with_class p.active_items .threeSixty with _ | t <;>
        rw [hspray, h360] at hb <;>
        first
          | exact absurd hb (List.not_mem_nil b)
          | exact key _ b hb
    · rw [hb]; rfl
  · intro b h
    constructor
    · simp [hitHostile]
    · simp only [hitHostile, decide_eq_false_iff_not, not_lt]
      omega

/-- Witness for C10 (amended) at a concrete player with gun level 4 and
no items (`final_penetration = 2`) shooting right, and a concrete first
hit. -/
theorem shoot_penetration_at_least_one_witness :
    1 ≤ final_penetration (PlayerState.mk 0 4 0 none 0 [] false true true 0 0)
    ∧ (mkBullet
        (final_damage (PlayerState.mk 0 4 0 none 0 [] false true true 0 0))
        ((final_penetration
          (PlayerState.mk 0 4 0 none 0 [] false true true 0 0) : ℤ))
        0 0 0)
      ∈ shoot (PlayerState.mk 0 4 0 none 0 [] false true true 0 0) 0
    ∧ (mkBullet
        (final_damage (PlayerState.mk 0 4 0 none 0 [] false true true 0 0))
        ((final_penetration
          (PlayerState.mk 0 4 0 none 0 [] false true true 0 0) : ℤ))
        0 0 0).remaining_penetration
      = (final_penetration
          (PlayerState.mk 0 4 0 none 0 [] false true true 0 0) : ℤ)
    ∧ (hitHostile (mkBullet
        (final_damage (PlayerState.mk 0 4 0 none 0 [] false true true 0 0))
        ((final_penetration
          (PlayerState.mk 0 4 0 none 0 [] false true true 0 0) : ℤ))
        0 0 0) (HostileM.mk 7 5)).hostile.hp
      = (HostileM.mk 7 5).hp - (mkBullet
        (final_damage (PlayerState.mk 0 4 0 none 0 [] false true true 0 0))
        ((final_penetration
          (PlayerState.mk 0 4 0 none 0 [] false true true 0 0) : ℤ))
        0 0 0).damage := by
  have hall := shoot_penetration_at_least_one
    (PlayerState.mk 0 4 0 none 0 [] false true true 0 0) 0
  have hmem : (mkBullet
      (final_damage (PlayerState.mk 0 4 0 none 0 [] false true true 0 0))
      ((final_penetration
        (PlayerState.mk 0 4 0 none 0 [] false true true 0 0) : ℤ))
      0 0 0)
    ∈ shoot (PlayerState.mk 0 4 0 none 0 [] false true true 0 0) 0 := by
    simp [shoot, find_with_class]
  refine ⟨hall.1, hmem, ?_, ?_⟩
  · exact hall.2.1 _ hmem
  · exact (hall.2.2 (mkBullet
      (final_damage (PlayerState.mk 0 4 0 none 0 [] false true true 0 0))
      ((final_penetration
        (PlayerState.mk 0 4 0 none 0 [] false true true 0 0) : ℤ))
      0 0 0) (HostileM.mk 7 5)).1

end Deltaworld
